import Mathlib

/-!
Verification of the chunked resumable flair-scan engine
(`src/unnamed/part_001`, function `buildFlairGroupsPaginatedChunk` and its
helpers, plus `getAppSettings` from `src/src/main.ts`) against its
natural-language specification.

The embedding is shallow: JS objects become Lean structures, the key/value
store becomes a record of optional fields, the page source becomes an
explicit list of fetch outcomes consumed in order, `Date.now()` is
abstracted as a single instant `nowT`, and the time budget
(`isTimeRemaining`) is abstracted as a boolean oracle indexed by the loop
iteration (the real predicate is monotone in time; all theorems quantify
over arbitrary oracles, a superset).  Storage writes and deletes go through
`safeKVWrite`/`safeKVDelete`, which catch all errors: they are modelled by
an oracle `StoreOracle` saying whether the n-th store operation succeeds;
a failed operation leaves the store unchanged and never throws, exactly as
in the source.  The one raw, unguarded store read in the chunk function
(line 192, `kvStore.get("flairScanStartedAt")`) is modelled by the boolean
`startedAtReadOk`.  JS falsiness of a cursor (`!currentAfter`, which is
true for both `null` and the empty string) is modelled by `jsFalsyCursor`.
-/

namespace FlairFax

/-- A user-flair entry of a page, as consumed by the merge loop
(lines 155-162): both the `user` and the `flairText` field may be absent. -/
structure Member where
  user : Option String
  flairText : Option String
deriving Repr, DecidableEq

/-- One page returned by `subreddit.getUserFlair`: the entries and the
`next` cursor (`none` models a nullish `next`, i.e. `resp.next ?? null`
gives `null`). -/
structure Page where
  users : List Member
  next : Option String
deriving Repr, DecidableEq

/-- The aggregate `Record<string, string[]>` (flair text to usernames),
as an association list in property-insertion order, matching JS object
key order for string keys. -/
abbrev Groups := List (String × List String)

/-- Lookup of `rec[k]` in the aggregate. -/
def groupsFind (g : Groups) (k : String) : Option (List String) :=
  match g with
  | [] => none
  | (k', v) :: rest => if k' = k then some v else groupsFind rest k

/-- Lines 159-160: `if (!rec[ftext]) rec[ftext] = []; rec[ftext].push(uname)`.
A missing key gets a fresh one-element array appended at the end of the
key order; an existing key (a `string[]`, always truthy) gets `uname`
pushed onto its array. -/
def groupsPush (g : Groups) (k : String) (v : String) : Groups :=
  match g with
  | [] => [(k, [v])]
  | (k', vs) :: rest =>
      if k' = k then (k', vs ++ [v]) :: rest else (k', vs) :: groupsPush rest k v

/-- Line 156: `const uname = u.user ?? "Unknown"` (nullish coalescing:
only an absent name falls back to the sentinel; an empty string is kept). -/
def memberName (u : Member) : String := u.user.getD "Unknown"

/-- JS `String.prototype.trim`: strip leading and trailing whitespace
(modelled at the ASCII fragment space, tab, CR, LF that
`Char.isWhitespace` covers), written structurally over the character
list so that it evaluates by kernel reduction. -/
def jsTrim (s : String) : String :=
  String.mk
    (((s.data.dropWhile Char.isWhitespace).reverse.dropWhile Char.isWhitespace).reverse)

/-- Line 157: `const ftext = (u.flairText || "").trim()`: an absent or empty
(falsy) flair text becomes `""`, then the text is trimmed. -/
def memberLabel (u : Member) : String := jsTrim (u.flairText.getD "")

/-- Lines 156-161, one entry of the merge loop: a member whose processed
label is empty is skipped, otherwise its name is pushed onto the label's
group and the running count is incremented. -/
def mergeUser (g : Groups) (cnt : Nat) (u : Member) : Groups × Nat :=
  let ftext := memberLabel u
  if ftext = "" then (g, cnt)
  else (groupsPush g ftext (memberName u), cnt + 1)

/-- Lines 155-162: `for (const u of resp.users) ...` over a whole page. -/
def mergePage (g : Groups) (cnt : Nat) (users : List Member) : Groups × Nat :=
  users.foldl (fun p u => mergeUser p.1 p.2 u) (g, cnt)

/-- Members of a page that the merge loop accepts: trimmed label non-empty. -/
def validCount (users : List Member) : Nat :=
  users.countP (fun u => !(memberLabel u == ""))

/-- Stated from the claim's words (claims C1 and C9 speak of members "with a
non-empty label", with no mention of trimming): members whose `flairText`
is present and not the empty string.  Compared against the source-derived
`validCount`, which trims first. -/
def rawNonEmptyLabelCount (users : List Member) : Nat :=
  users.countP (fun u => !(u.flairText.getD "" == ""))

/-- `!currentAfter` on a cursor of type `string | null`: true for `null`
and for the empty string (JS falsiness), line 185. -/
def jsFalsyCursor (a : Option String) : Bool :=
  match a with
  | none => true
  | some s => s == ""

/-- The checkpoint record `FlairScanResult` (lines 13-22).  `toastShown` is
an optional field the chunk function never sets. -/
structure FlairScanResult where
  flairGroups : Groups
  after : Option String
  timestamp : Nat
  completed : Bool
  scannedUsers : Nat
  lastPageNumber : Nat
  toastShown : Option Bool
deriving Repr, DecidableEq

/-- The key/value store restricted to the keys the engine uses
(spec section 6 key schema; source key strings carry a `flair` prefix). -/
structure KV where
  flairScanResult : Option FlairScanResult
  flairScanPartial : Option FlairScanResult
  flairScanInProgress : Option Bool
  flairScanFailed : Option Bool
  flairScanFailedMessage : Option String
  flairScanStartedAt : Option Nat
  flairScanCompletedAt : Option Nat
  flairScanHeartbeat : Option Nat
  appVersion : Option String
deriving Repr, DecidableEq

/-- Outcome of one `subreddit.getUserFlair` call: a page, a thrown fetch
error (line 136), or a malformed response (`!resp || !Array.isArray
(resp.users)`, line 146).  The chunk consumes these in call order; running
past the end of the list is modelled as an absent response, which the same
defensive check catches. -/
inductive FetchOutcome where
  | ok (p : Page)
  | throwErr (msg : String)
  | badShape
deriving Repr, DecidableEq

/-- The errors `buildFlairGroupsPaginatedChunk` can propagate to its caller:
a rethrown page-fetch error (line 142), the shape error (line 151), or a
failure of the raw, unguarded `kvStore.get("flairScanStartedAt")` read
(line 192), which no try/catch in the function contains. -/
inductive ChunkErr where
  | fetchErr (msg : String)
  | shapeErr
  | storeReadErr
deriving Repr, DecidableEq

/-- Success oracle for the n-th checkpoint-store write/delete performed
through `safeKVWrite`/`safeKVDelete`. -/
abbrev StoreOracle := Nat → Bool

/-- `safeKVWrite`/`safeKVDelete` (lines 57-71): the operation is attempted;
on failure the error is logged and swallowed, so the store is simply left
unchanged and nothing is thrown. -/
def safeKVOp (o : StoreOracle) (t : Nat) (kv : KV) (w : KV → KV) : KV × Nat :=
  (if o t then w kv else kv, t + 1)

/-- Result of the paging loop (lines 123-189): an error if the loop threw,
the accumulated aggregate, count, page number, cursor and completion flag,
the store as evolved by the loop's safe writes, the next store-operation
index, and the fetch outcomes not consumed. -/
structure LoopOut where
  err : Option ChunkErr
  groups : Groups
  cnt : Nat
  pageNo : Nat
  after : Option String
  completed : Bool
  kv : KV
  tick : Nat
  rest : List FetchOutcome
deriving Repr

/-- The do-while loop of `buildFlairGroupsPaginatedChunk` (lines 123-189).
Iteration `k`: increment the page number first (line 124); stop if the
budget oracle denies iteration `k` (lines 128-131); fetch (line 135) -
on a thrown fetch error or a malformed response persist
`flairScanFailed`, `flairScanFailedMessage`, `flairScanInProgress=false`
through the safe writer and rethrow (lines 136-152); merge the page
(lines 155-162); advance the cursor (line 164); write the heartbeat
(line 180); and stop complete if the cursor is falsy (lines 185-188).
The store state after the three failure writes of lines 139-141 or
148-150 (`flairScanFailed := true`, `flairScanFailedMessage := msg`,
`flairScanInProgress := false`, each through the safe writer) is factored
into `failWrites`. -/
def failWrites (o : StoreOracle) (t : Nat) (kv : KV) (msg : String) : KV × Nat :=
  let (kv1, t1) := safeKVOp o t kv (fun kv => { kv with flairScanFailed := some true })
  let (kv2, t2) := safeKVOp o t1 kv1 (fun kv => { kv with flairScanFailedMessage := some msg })
  safeKVOp o t2 kv2 (fun kv => { kv with flairScanInProgress := some false })

def chunkLoop (budget : Nat → Bool) (o : StoreOracle) (nowT : Nat) :
    Nat → Option String → List FetchOutcome → Groups → Nat → Nat → KV → Nat → LoopOut
  | k, after, [], g, cnt, pageNo, kv, t =>
    if ¬ budget k then
      ⟨none, g, cnt, pageNo + 1, after, false, kv, t, []⟩
    else
      let kt := failWrites o t kv "Invalid response from getUserFlair"
      ⟨some ChunkErr.shapeErr, g, cnt, pageNo + 1, after, false, kt.1, kt.2, []⟩
  | k, after, f :: rest, g, cnt, pageNo, kv, t =>
    if ¬ budget k then
      ⟨none, g, cnt, pageNo + 1, after, false, kv, t, f :: rest⟩
    else
      match f with
      | FetchOutcome.badShape =>
          let kt := failWrites o t kv "Invalid response from getUserFlair"
          ⟨some ChunkErr.shapeErr, g, cnt, pageNo + 1, after, false, kt.1, kt.2, rest⟩
      | FetchOutcome.throwErr msg =>
          let kt := failWrites o t kv msg
          ⟨some (ChunkErr.fetchErr msg), g, cnt, pageNo + 1, after, false, kt.1, kt.2, rest⟩
      | FetchOutcome.ok p =>
          let gc := mergePage g cnt p.users
          let after' := p.next
          let kt := safeKVOp o t kv (fun kv => { kv with flairScanHeartbeat := some nowT })
          if jsFalsyCursor after' then
            ⟨none, gc.1, gc.2, pageNo + 1, after', true, kt.1, kt.2, rest⟩
          else
            chunkLoop budget o nowT (k + 1) after' rest gc.1 gc.2 (pageNo + 1) kt.1 kt.2

/-- Decidable equality on `Except`, so that concrete chunk outcomes can be
checked by `decide`. -/
instance {ε α : Type} [DecidableEq ε] [DecidableEq α] : DecidableEq (Except ε α) := fun a b =>
  match a, b with
  | Except.error e, Except.error f =>
      if h : e = f then Decidable.isTrue (by rw [h])
      else Decidable.isFalse (fun hh => h (Except.error.inj hh))
  | Except.ok x, Except.ok y =>
      if h : x = y then Decidable.isTrue (by rw [h])
      else Decidable.isFalse (fun hh => h (Except.ok.inj hh))
  | Except.error _, Except.ok _ => Decidable.isFalse (fun hh => Except.noConfusion hh)
  | Except.ok _, Except.error _ => Decidable.isFalse (fun hh => Except.noConfusion hh)

/-- Lines 192-193: the checkpoint timestamp reuses the stored
`flairScanStartedAt` when that value is a number, else `Date.now()`. -/
def timestampOf (kv : KV) (nowT : Nat) : Nat :=
  match kv.flairScanStartedAt with
  | some n => n
  | none => nowT

/-- What `buildFlairGroupsPaginatedChunk` hands back: the thrown error or
the returned checkpoint, plus the final store state, operation index and
unconsumed fetch outcomes. -/
structure BuildOut where
  res : Except ChunkErr FlairScanResult
  kv : KV
  tick : Nat
  rest : List FetchOutcome
deriving Repr

/-- Lines 204-214, persisting the partial or final checkpoint: on
completion write `flairScanResult`, `flairScanCompletedAt`,
`flairScanInProgress=false`, `flairScanFailed=false` and delete
`flairScanPartial`; otherwise write `flairScanPartial` and
`flairScanInProgress=true`, all through the safe writer/deleter. -/
def persistPhase (o : StoreOracle) (nowT : Nat) (result : FlairScanResult)
    (completed : Bool) (kv : KV) (t : Nat) : KV × Nat :=
  if completed then
    let (kv1, t1) := safeKVOp o t kv (fun kv => { kv with flairScanResult := some result })
    let (kv2, t2) := safeKVOp o t1 kv1 (fun kv => { kv with flairScanCompletedAt := some nowT })
    let (kv3, t3) := safeKVOp o t2 kv2 (fun kv => { kv with flairScanInProgress := some false })
    let (kv4, t4) := safeKVOp o t3 kv3 (fun kv => { kv with flairScanFailed := some false })
    safeKVOp o t4 kv4 (fun kv => { kv with flairScanPartial := none })
  else
    let (kv1, t1) := safeKVOp o t kv (fun kv => { kv with flairScanPartial := some result })
    safeKVOp o t1 kv1 (fun kv => { kv with flairScanInProgress := some true })

/-- `buildFlairGroupsPaginatedChunk` (lines 99-217).  After the loop, the
function performs one raw `kvStore.get("flairScanStartedAt")` (line 192,
modelled by `startedAtReadOk`; a failure there propagates uncontained),
reuses the stored start instant as the checkpoint timestamp when it is a
number (line 193), builds the checkpoint (lines 195-202) and persists it
through `persistPhase` (lines 204-214). -/
def buildFlairGroupsPaginatedChunk (budget : Nat → Bool) (o : StoreOracle)
    (nowT : Nat) (startedAtReadOk : Bool) (after : Option String)
    (cumulativeFlairGroupsStart : Groups) (scannedUsersStart : Nat)
    (startPageNumber : Nat) (fetches : List FetchOutcome) (kv : KV) (t : Nat) :
    BuildOut :=
  let out := chunkLoop budget o nowT 0 after fetches
    cumulativeFlairGroupsStart scannedUsersStart startPageNumber kv t
  match out.err with
  | some e => ⟨Except.error e, out.kv, out.tick, out.rest⟩
  | none =>
      if ¬ startedAtReadOk then
        ⟨Except.error ChunkErr.storeReadErr, out.kv, out.tick, out.rest⟩
      else
        let timestamp := timestampOf out.kv nowT
        let result : FlairScanResult :=
          ⟨out.groups, out.after, timestamp, out.completed, out.cnt,
            out.pageNo, none⟩
        let kt := persistPhase o nowT result out.completed out.kv out.tick
        ⟨Except.ok result, kt.1, kt.2, out.rest⟩

/-- Outcome of running a sequence of chunk invocations of one generation. -/
structure GenOut where
  res : Except ChunkErr FlairScanResult
  kv : KV
  tick : Nat
  rest : List FetchOutcome
  nChunks : Nat
deriving Repr

/-- One generation driven the way `startQuickScan`/`continueScan` and the
form handler drive it (lines 222-275, 336-349): each chunk invocation
resumes from the previous chunk's checkpoint fields (`after`,
`flairGroups`, `scannedUsers`, `lastPageNumber`); the generation ends when
a chunk completes, throws, or the list of budgets (one per invocation) is
exhausted.  `nChunks` counts the invocations performed. -/
def runGenFrom (o : StoreOracle) (nowT : Nat) :
    (Nat → Bool) → List (Nat → Bool) → Option String → Groups → Nat → Nat →
    List FetchOutcome → KV → Nat → GenOut
  | b, [], after, g, cnt, pageNo, fetches, kv, t =>
    let bo := buildFlairGroupsPaginatedChunk b o nowT true after g cnt pageNo fetches kv t
    match bo.res with
    | Except.error e => ⟨Except.error e, bo.kv, bo.tick, bo.rest, 1⟩
    | Except.ok ck => ⟨Except.ok ck, bo.kv, bo.tick, bo.rest, 1⟩
  | b, b' :: bs', after, g, cnt, pageNo, fetches, kv, t =>
    let bo := buildFlairGroupsPaginatedChunk b o nowT true after g cnt pageNo fetches kv t
    match bo.res with
    | Except.error e => ⟨Except.error e, bo.kv, bo.tick, bo.rest, 1⟩
    | Except.ok ck =>
        if ck.completed then ⟨Except.ok ck, bo.kv, bo.tick, bo.rest, 1⟩
        else
          let gout := runGenFrom o nowT b' bs' ck.after ck.flairGroups
            ck.scannedUsers ck.lastPageNumber bo.rest bo.kv bo.tick
          ⟨gout.res, gout.kv, gout.tick, gout.rest, gout.nChunks + 1⟩

/-- A fresh generation (the first chunk starts from a null cursor, an empty
aggregate, count 0 and page number 0, lines 244-252 and 418-426). -/
def runGeneration (o : StoreOracle) (nowT : Nat) (b : Nat → Bool)
    (bs : List (Nat → Bool)) (pages : List Page) (kv : KV) : GenOut :=
  runGenFrom o nowT b bs none [] 0 0 (pages.map FetchOutcome.ok) kv 0

/-- Valid members summed over a list of pages. -/
def pagesValidCount (pages : List Page) : Nat :=
  (pages.map (fun p => validCount p.users)).sum

/-- The claim-worded count summed over a list of pages. -/
def pagesRawNonEmptyCount (pages : List Page) : Nat :=
  (pages.map (fun p => rawNonEmptyLabelCount p.users)).sum

/-- A well-formed page source: every page except the final one carries a
non-falsy `next` cursor (the final page may end the listing). -/
def pagesWF : List Page → Bool
  | [] => true
  | [_] => true
  | p :: q :: rest => !(jsFalsyCursor p.next) && pagesWF (q :: rest)

/-- Merging a list of pages in order, the no-error path of the loop. -/
def mergePages (g : Groups) (cnt : Nat) : List Page → Groups × Nat
  | [] => (g, cnt)
  | p :: rest =>
      let gc := mergePage g cnt p.users
      mergePages gc.1 gc.2 rest

/-- Total number of identifiers across all groups of an aggregate. -/
def groupsTotal (g : Groups) : Nat :=
  (g.map (fun e => e.2.length)).sum

/-! State-machine operations (lines 451-478). -/

/-- `clearScan` (lines 465-478): six `safeKVDelete` calls, in source order,
on `flairScanPartial`, `flairScanResult`, `flairScanInProgress`,
`flairScanFailed`, `flairScanFailedMessage` and `flairScanStartedAt`.
The function deletes no other key. -/
def clearScan (o : StoreOracle) (t : Nat) (kv : KV) : KV × Nat :=
  let (kv1, t1) := safeKVOp o t kv (fun kv => { kv with flairScanPartial := none })
  let (kv2, t2) := safeKVOp o t1 kv1 (fun kv => { kv with flairScanResult := none })
  let (kv3, t3) := safeKVOp o t2 kv2 (fun kv => { kv with flairScanInProgress := none })
  let (kv4, t4) := safeKVOp o t3 kv3 (fun kv => { kv with flairScanFailed := none })
  let (kv5, t5) := safeKVOp o t4 kv4 (fun kv => { kv with flairScanFailedMessage := none })
  safeKVOp o t5 kv5 (fun kv => { kv with flairScanStartedAt := none })

/-- `resetFlairScanIfAppUpdated` (lines 451-463): when the stored
`appVersion` is not the current version string (a stored non-string reads
as null and so always differs), run `clearScan` and store the current
version.  The surrounding try/catch only matters when the initial read
itself fails, which is not modelled here. -/
def resetFlairScanIfAppUpdated (o : StoreOracle) (t : Nat) (kv : KV)
    (currentVersion : String) : KV × Nat :=
  if kv.appVersion ≠ some currentVersion then
    let (kv1, t1) := clearScan o t kv
    safeKVOp o t1 kv1 (fun kv => { kv with appVersion := some currentVersion })
  else (kv, t)

/-- The NoScan classification, read off the menu handler's guards
(lines 381-385, 415): no in-progress flag set, no partial, no full result,
no failure flag (`!!get(...)` makes an absent or false flag falsy). -/
def isNoScan (kv : KV) : Bool :=
  !(kv.flairScanInProgress.getD false) && kv.flairScanPartial.isNone
    && kv.flairScanResult.isNone && !(kv.flairScanFailed.getD false)

/-! Settings and the time budget (src/src/main.ts lines 54-60 and
src/unnamed/part_001 lines 51-53, 114-115). -/

/-- JS `parseInt(s, 10)`: skip surrounding whitespace, read an optional
sign and then the longest leading run of decimal digits; no digit means
NaN, modelled as `none`. -/
def parseIntBase10 (s : String) : Option Int :=
  let cs := (jsTrim s).toList
  let signed : Bool × List Char :=
    match cs with
    | '-' :: rest => (true, rest)
    | '+' :: rest => (false, rest)
    | rest => (false, rest)
  let ds := signed.2.takeWhile Char.isDigit
  if ds.isEmpty then none
  else
    let v : Int := Int.ofNat (ds.foldl (fun a c => a * 10 + (c.toNat - 48)) 0)
    some (if signed.1 then -v else v)

/-- `getAppSettings` (main.ts lines 54-60): the raw configured value
(modelled by its string form, `none` when the setting is absent) falls
back to the string "30" and is fed to `parseInt(-, 10)`.  `none` in the
result models NaN. -/
def getAppSettings (stored : Option String) : Option Int :=
  parseIntBase10 (stored.getD "30")

/-- JS `typeof x === "number"` on the settings field: the field always
holds a number - NaN included, since `typeof NaN` is "number". -/
def jsTypeofNumber (_x : Option Int) : Bool := true

/-- Lines 114-115: the timeout used by the chunk's time budget.
`getAppSettings` exists, so the settings object is consulted; the
`typeof === "number"` guard accepts every parse result, NaN included,
and only then would fall back to the default 30. -/
def timeoutSecondsOf (stored : Option String) : Option Int :=
  let settings := getAppSettings stored
  if jsTypeofNumber settings then settings else some 30

/-- `isTimeRemaining` (lines 51-53): `now - start < timeoutSeconds * 1000 *
0.9`, with the millisecond threshold written as `t * 900`.  A NaN timeout
(`none`) makes the comparison false, as every comparison with NaN is. -/
def isTimeRemaining (elapsedMs : Int) (timeoutSeconds : Option Int) : Bool :=
  match timeoutSeconds with
  | none => false
  | some t => elapsedMs < t * 900

/-! Reference-level model of the aggregate for the cloning claim.  JS
arrays are heap objects passed by reference; `{ ...start }` (line 111)
copies the label-to-array bindings but shares the array objects. -/

/-- Reference to an array object: an index into the array heap. -/
abbrev ArrRef := Nat

/-- The heap of string-array objects. -/
abbrev Heap := List (List String)

/-- A JS `Record<string, string[]>` value: bindings from label to a
reference to an array object. -/
abbrev RecordRef := List (String × ArrRef)

/-- Dereference `h[r]`. -/
def heapGet (h : Heap) (r : ArrRef) : List String := h.getD r []

/-- Overwrite the array object behind `r`. -/
def heapSet (h : Heap) (r : ArrRef) (v : List String) : Heap := h.set r v

/-- Property lookup on a record of references. -/
def recFind (rec : RecordRef) (k : String) : Option ArrRef :=
  match rec with
  | [] => none
  | (k', r) :: rest => if k' = k then some r else recFind rest k

/-- Line 111, `{ ...(cumulativeFlairGroupsStart ?? {}) }`: a shallow spread
copies the bindings and shares every array reference with the source
record. -/
def shallowSpread (rec : RecordRef) : RecordRef := rec

/-- The record as the caller observes it: every binding dereferenced. -/
def readRec (h : Heap) (rec : RecordRef) : Groups :=
  rec.map (fun e => (e.1, heapGet h e.2))

/-- Lines 156-161 at reference level: an accepted member either pushes onto
the existing array object behind the label's binding - mutating that
object in place, visible through every alias - or allocates a fresh
one-element array bound only in the local record. -/
def mergeUserRef (h : Heap) (rec : RecordRef) (u : Member) : Heap × RecordRef :=
  let ftext := memberLabel u
  if ftext = "" then (h, rec)
  else
    match recFind rec ftext with
    | some r => (heapSet h r (heapGet h r ++ [memberName u]), rec)
    | none => (h ++ [[memberName u]], rec ++ [(ftext, h.length)])

/-- A whole page merged at reference level. -/
def mergePageRef (h : Heap) (rec : RecordRef) (users : List Member) : Heap × RecordRef :=
  users.foldl (fun p u => mergeUserRef p.1 p.2 u) (h, rec)

/-! Fixed concrete instruments used by witnesses and counterexamples. -/

/-- The storage oracle under which every safe write/delete succeeds. -/
def alwaysOk : StoreOracle := fun _ => true

/-- A time budget that never runs out. -/
def alwaysTime : Nat → Bool := fun _ => true

/-- A time budget that allows only the first loop iteration of a chunk. -/
def oneIterTime : Nat → Bool := fun k => k == 0

/-- The empty key/value store. -/
def kvEmpty : KV := ⟨none, none, none, none, none, none, none, none, none⟩

/-- The spec's two-page scenario: labels gold,gold,silver then
gold,silver,silver, second page ends the listing. -/
def pagesScenario : List Page :=
  [ ⟨[⟨some "u1", some "gold"⟩, ⟨some "u2", some "gold"⟩, ⟨some "u3", some "silver"⟩], some "c1"⟩,
    ⟨[⟨some "u4", some "gold"⟩, ⟨some "u5", some "silver"⟩, ⟨some "u6", some "silver"⟩], none⟩ ]

/-- A one-page source whose single member has the whitespace-only label
a single space: non-empty, but trimmed to empty by the merge loop. -/
def pagesSpaceLabel : List Page := [⟨[⟨some "u1", some " "⟩], none⟩]

/-- A two-page source with no members, used to count pages across chunks. -/
def pagesTwoEmpty : List Page := [⟨[], some "c1"⟩, ⟨[], none⟩]

/-- A store with every engine key set, used to observe what a reset leaves
behind. -/
def kvAllSet : KV :=
  ⟨some ⟨[], none, 1, true, 0, 0, none⟩, some ⟨[], none, 1, false, 0, 0, none⟩,
    some true, some true, some "m", some 3, some 5, some 7, some "1.0"⟩

/-! Helper lemmas: merge algebra. -/

theorem jsFalsy_iff (a : Option String) :
    jsFalsyCursor a = true ↔ a = none ∨ a = some "" := by
  cases a <;> simp [jsFalsyCursor]

theorem groupsTotal_push (g : Groups) (k v : String) :
    groupsTotal (groupsPush g k v) = groupsTotal g + 1 := by
  induction g with
  | nil => simp [groupsPush, groupsTotal]
  | cons e rest ih =>
      obtain ⟨k', vs⟩ := e
      by_cases h : k' = k
      · simp [groupsPush, h, groupsTotal]
        omega
      · simp [groupsPush, h, groupsTotal] at ih ⊢
        omega

theorem mergeUser_cnt (g : Groups) (cnt : Nat) (u : Member) :
    (mergeUser g cnt u).2 = cnt + (if memberLabel u = "" then 0 else 1) := by
  by_cases h : memberLabel u = "" <;> simp [mergeUser, h]

theorem mergeUser_consistent (g : Groups) (cnt : Nat) (u : Member)
    (h : cnt = groupsTotal g) :
    (mergeUser g cnt u).2 = groupsTotal (mergeUser g cnt u).1 := by
  by_cases hl : memberLabel u = ""
  · simp [mergeUser, hl, h]
  · simp [mergeUser, hl, groupsTotal_push, h]

theorem mergePage_cnt (users : List Member) :
    ∀ (g : Groups) (cnt : Nat), (mergePage g cnt users).2 = cnt + validCount users := by
  induction users with
  | nil => intro g cnt; simp [mergePage, validCount]
  | cons u us ih =>
      intro g cnt
      have hstep : mergePage g cnt (u :: us) =
          mergePage (mergeUser g cnt u).1 (mergeUser g cnt u).2 us := by
        simp [mergePage]
      rw [hstep, ih]
      rw [mergeUser_cnt]
      simp only [validCount, List.countP_cons]
      by_cases h : memberLabel u = ""
      · simp [h]
      · have : (memberLabel u == "") = false := by simp [h]
        simp [this, h]
        omega

theorem mergePage_consistent (users : List Member) :
    ∀ (g : Groups) (cnt : Nat), cnt = groupsTotal g →
      (mergePage g cnt users).2 = groupsTotal (mergePage g cnt users).1 := by
  induction users with
  | nil => intro g cnt h; simpa [mergePage] using h
  | cons u us ih =>
      intro g cnt h
      have hstep : mergePage g cnt (u :: us) =
          mergePage (mergeUser g cnt u).1 (mergeUser g cnt u).2 us := by
        simp [mergePage]
      rw [hstep]
      exact ih _ _ (mergeUser_consistent g cnt u h)

theorem mergePages_append (ps qs : List Page) :
    ∀ (g : Groups) (cnt : Nat), mergePages g cnt (ps ++ qs) =
      mergePages (mergePages g cnt ps).1 (mergePages g cnt ps).2 qs := by
  induction ps with
  | nil => intro g cnt; simp [mergePages]
  | cons p ps ih => intro g cnt; simp [mergePages, ih]

theorem mergePages_cnt (ps : List Page) :
    ∀ (g : Groups) (cnt : Nat), (mergePages g cnt ps).2 = cnt + pagesValidCount ps := by
  induction ps with
  | nil => intro g cnt; simp [mergePages, pagesValidCount]
  | cons p ps ih =>
      intro g cnt
      have hcons : pagesValidCount (p :: ps) = validCount p.users + pagesValidCount ps := by
        simp [pagesValidCount]
      simp only [mergePages]
      rw [ih, mergePage_cnt, hcons]
      omega

theorem pagesValidCount_append (ps qs : List Page) :
    pagesValidCount (ps ++ qs) = pagesValidCount ps + pagesValidCount qs := by
  simp [pagesValidCount]

/-! Helper lemmas: the paging loop. -/

/-- The control outputs of a loop run: everything except the store state
and the operation index. -/
def ctrlView (out : LoopOut) :
    Option ChunkErr × Groups × Nat × Nat × Option String × Bool × List FetchOutcome :=
  (out.err, out.groups, out.cnt, out.pageNo, out.after, out.completed, out.rest)

/-- The fields of the store that the loop's writes leave untouched. -/
def kvFrame (kv : KV) : Option FlairScanResult × Option FlairScanResult × Option Nat :=
  (kv.flairScanResult, kv.flairScanPartial, kv.flairScanStartedAt)

theorem kvFrame_safeKVOp_heartbeat (o : StoreOracle) (t : Nat) (kv : KV) (nowT : Nat) :
    kvFrame (safeKVOp o t kv (fun kv => { kv with flairScanHeartbeat := some nowT })).1 =
      kvFrame kv := by
  simp only [safeKVOp, kvFrame]
  split_ifs <;> rfl

theorem kvFrame_failWrites (o : StoreOracle) (t : Nat) (kv : KV) (msg : String) :
    kvFrame (failWrites o t kv msg).1 = kvFrame kv := by
  simp only [failWrites, safeKVOp, kvFrame]
  split_ifs <;> rfl

/-- The loop never writes `flairScanResult`, `flairScanPartial` or
`flairScanStartedAt`: its only store operations are the heartbeat and the
three failure flags. -/
theorem chunkLoop_preserves (b : Nat → Bool) (o : StoreOracle) (nowT : Nat) :
    ∀ (fetches : List FetchOutcome) (k : Nat) (after : Option String) (g : Groups)
      (cnt pageNo : Nat) (kv : KV) (t : Nat),
      kvFrame (chunkLoop b o nowT k after fetches g cnt pageNo kv t).kv = kvFrame kv := by
  intro fetches
  induction fetches with
  | nil =>
      intro k after g cnt pageNo kv t
      by_cases hb : b k <;> simp [chunkLoop, hb, kvFrame_failWrites]
  | cons f rest ih =>
      intro k after g cnt pageNo kv t
      by_cases hb : b k
      · cases f with
        | throwErr msg => simp [chunkLoop, hb, kvFrame_failWrites]
        | badShape => simp [chunkLoop, hb, kvFrame_failWrites]
        | ok p =>
            by_cases hf : jsFalsyCursor p.next
            · simp [chunkLoop, hb, hf, kvFrame_safeKVOp_heartbeat]
            · simp only [chunkLoop, hb, hf, not_true, if_neg, Bool.not_eq_true,
                if_false, ite_false]
              rw [ih]
              exact kvFrame_safeKVOp_heartbeat o t kv nowT
      · simp [chunkLoop, hb]

/-- The control outputs of the loop do not depend on the storage oracle,
the store contents or the operation index: store failures are absorbed by
`safeKVWrite` and the loop never reads the store. -/
theorem chunkLoop_ctrl (b : Nat → Bool) (o o' : StoreOracle) (nowT : Nat) :
    ∀ (fetches : List FetchOutcome) (k : Nat) (after : Option String) (g : Groups)
      (cnt pageNo : Nat) (kv kv' : KV) (t t' : Nat),
      ctrlView (chunkLoop b o nowT k after fetches g cnt pageNo kv t) =
        ctrlView (chunkLoop b o' nowT k after fetches g cnt pageNo kv' t') := by
  intro fetches
  induction fetches with
  | nil =>
      intro k after g cnt pageNo kv kv' t t'
      by_cases hb : b k <;> simp [chunkLoop, hb, ctrlView]
  | cons f rest ih =>
      intro k after g cnt pageNo kv kv' t t'
      by_cases hb : b k
      · cases f with
        | throwErr msg => simp [chunkLoop, hb, ctrlView]
        | badShape => simp [chunkLoop, hb, ctrlView]
        | ok p =>
            by_cases hf : jsFalsyCursor p.next
            · simp [chunkLoop, hb, hf, ctrlView]
            · simp only [chunkLoop, hb, hf, not_true, Bool.not_eq_true, if_false,
                ite_false]
              exact ih (k + 1) p.next (mergePage g cnt p.users).1
                (mergePage g cnt p.users).2 (pageNo + 1) _ _ _ _
      · simp [chunkLoop, hb, ctrlView]

/-- The loop reports `completed = true` only when it stopped at a falsy
cursor (lines 185-188). -/
theorem chunkLoop_completed_falsy (b : Nat → Bool) (o : StoreOracle) (nowT : Nat) :
    ∀ (fetches : List FetchOutcome) (k : Nat) (after : Option String) (g : Groups)
      (cnt pageNo : Nat) (kv : KV) (t : Nat),
      (chunkLoop b o nowT k after fetches g cnt pageNo kv t).completed = true →
      jsFalsyCursor (chunkLoop b o nowT k after fetches g cnt pageNo kv t).after = true := by
  intro fetches
  induction fetches with
  | nil =>
      intro k after g cnt pageNo kv t
      by_cases hb : b k <;> simp [chunkLoop, hb]
  | cons f rest ih =>
      intro k after g cnt pageNo kv t
      by_cases hb : b k
      · cases f with
        | throwErr msg => simp [chunkLoop, hb]
        | badShape => simp [chunkLoop, hb]
        | ok p =>
            by_cases hf : jsFalsyCursor p.next
            · simp [chunkLoop, hb, hf]
            · simp only [chunkLoop, hb, hf, not_true, Bool.not_eq_true, if_false,
                ite_false]
              exact ih (k + 1) p.next (mergePage g cnt p.users).1
                (mergePage g cnt p.users).2 (pageNo + 1) _ _
      · simp [chunkLoop, hb]

/-- The page number strictly grows through a loop run: it is incremented
before the budget check, the fetch and every exit. -/
theorem chunkLoop_pageNo_gt (b : Nat → Bool) (o : StoreOracle) (nowT : Nat) :
    ∀ (fetches : List FetchOutcome) (k : Nat) (after : Option String) (g : Groups)
      (cnt pageNo : Nat) (kv : KV) (t : Nat),
      pageNo < (chunkLoop b o nowT k after fetches g cnt pageNo kv t).pageNo := by
  intro fetches
  induction fetches with
  | nil =>
      intro k after g cnt pageNo kv t
      by_cases hb : b k <;> simp [chunkLoop, hb]
  | cons f rest ih =>
      intro k after g cnt pageNo kv t
      by_cases hb : b k
      · cases f with
        | throwErr msg => simp [chunkLoop, hb]
        | badShape => simp [chunkLoop, hb]
        | ok p =>
            by_cases hf : jsFalsyCursor p.next
            · simp [chunkLoop, hb, hf]
            · simp only [chunkLoop, hb, hf, not_true, Bool.not_eq_true, if_false,
                ite_false]
              exact Nat.lt_of_succ_le (Nat.le_of_lt (ih (k + 1) p.next
                (mergePage g cnt p.users).1 (mergePage g cnt p.users).2 (pageNo + 1) _ _))
      · simp [chunkLoop, hb]

/-- The loop preserves consistency of the running count with the aggregate:
each accepted member appends one identifier and adds one to the count. -/
theorem chunkLoop_consistent (b : Nat → Bool) (o : StoreOracle) (nowT : Nat) :
    ∀ (fetches : List FetchOutcome) (k : Nat) (after : Option String) (g : Groups)
      (cnt pageNo : Nat) (kv : KV) (t : Nat), cnt = groupsTotal g →
      (chunkLoop b o nowT k after fetches g cnt pageNo kv t).cnt =
        groupsTotal (chunkLoop b o nowT k after fetches g cnt pageNo kv t).groups := by
  intro fetches
  induction fetches with
  | nil =>
      intro k after g cnt pageNo kv t h
      by_cases hb : b k <;> simp [chunkLoop, hb, h]
  | cons f rest ih =>
      intro k after g cnt pageNo kv t h
      by_cases hb : b k
      · cases f with
        | throwErr msg => simp [chunkLoop, hb, h]
        | badShape => simp [chunkLoop, hb, h]
        | ok p =>
            have hm := mergePage_consistent p.users g cnt h
            by_cases hf : jsFalsyCursor p.next
            · simpa [chunkLoop, hb, hf] using hm
            · simp only [chunkLoop, hb, hf, not_true, Bool.not_eq_true, if_false,
                ite_false]
              exact ih (k + 1) p.next (mergePage g cnt p.users).1
                (mergePage g cnt p.users).2 (pageNo + 1) _ _ hm
      · simp [chunkLoop, hb, h]

theorem failWrites_fields (t : Nat) (kv : KV) (msg : String) :
    (failWrites alwaysOk t kv msg).1.flairScanFailed = some true ∧
    (failWrites alwaysOk t kv msg).1.flairScanFailedMessage = some msg ∧
    (failWrites alwaysOk t kv msg).1.flairScanInProgress = some false := by
  simp [failWrites, safeKVOp, alwaysOk]

/-- When the loop throws under fully successful storage, the three failure
keys hold the values written on the error path: `flairScanFailed = true`,
the captured message, `flairScanInProgress = false`. -/
theorem chunkLoop_err_kv (b : Nat → Bool) (nowT : Nat) :
    ∀ (fetches : List FetchOutcome) (k : Nat) (after : Option String) (g : Groups)
      (cnt pageNo : Nat) (kv : KV) (t : Nat),
      (∀ m, (chunkLoop b alwaysOk nowT k after fetches g cnt pageNo kv t).err =
          some (ChunkErr.fetchErr m) →
        (chunkLoop b alwaysOk nowT k after fetches g cnt pageNo kv t).kv.flairScanFailed = some true ∧
        (chunkLoop b alwaysOk nowT k after fetches g cnt pageNo kv t).kv.flairScanFailedMessage = some m ∧
        (chunkLoop b alwaysOk nowT k after fetches g cnt pageNo kv t).kv.flairScanInProgress = some false) ∧
      ((chunkLoop b alwaysOk nowT k after fetches g cnt pageNo kv t).err =
          some ChunkErr.shapeErr →
        (chunkLoop b alwaysOk nowT k after fetches g cnt pageNo kv t).kv.flairScanFailed = some true ∧
        (chunkLoop b alwaysOk nowT k after fetches g cnt pageNo kv t).kv.flairScanFailedMessage =
          some "Invalid response from getUserFlair" ∧
        (chunkLoop b alwaysOk nowT k after fetches g cnt pageNo kv t).kv.flairScanInProgress = some false) := by
  intro fetches
  induction fetches with
  | nil =>
      intro k after g cnt pageNo kv t
      by_cases hb : b k
      · constructor
        · intro m hm; simp [chunkLoop, hb] at hm
        · intro hm
          simp only [chunkLoop, hb, not_true, Bool.not_eq_true, if_false, ite_false]
          exact failWrites_fields t kv _
      · constructor
        · intro m hm; simp [chunkLoop, hb] at hm
        · intro hm; simp [chunkLoop, hb] at hm
  | cons f rest ih =>
      intro k after g cnt pageNo kv t
      by_cases hb : b k
      · cases f with
        | throwErr msg =>
            constructor
            · intro m hm
              have hmm : msg = m := by simpa [chunkLoop, hb] using hm
              subst hmm
              simp only [chunkLoop, hb, not_true, Bool.not_eq_true, if_false, ite_false]
              exact failWrites_fields t kv _
            · intro hm; simp [chunkLoop, hb] at hm
        | badShape =>
            constructor
            · intro m hm; simp [chunkLoop, hb] at hm
            · intro hm
              simp only [chunkLoop, hb, not_true, Bool.not_eq_true, if_false, ite_false]
              exact failWrites_fields t kv _
        | ok p =>
            by_cases hf : jsFalsyCursor p.next
            · constructor
              · intro m hm; simp [chunkLoop, hb, hf] at hm
              · intro hm; simp [chunkLoop, hb, hf] at hm
            · simp only [chunkLoop, hb, hf, not_true, Bool.not_eq_true, if_false,
                ite_false]
              exact ih (k + 1) p.next (mergePage g cnt p.users).1
                (mergePage g cnt p.users).2 (pageNo + 1) _ _
      · constructor
        · intro m hm; simp [chunkLoop, hb] at hm
        · intro hm; simp [chunkLoop, hb] at hm

/-- Running the loop over a source of ordinary pages splits the source into
the consumed prefix and the untouched suffix: the aggregate and count are
the merge of the prefix, the page number advances by one per consumed page
plus one for the iteration that was cut short (if the chunk did not
complete), and completion happens exactly at a consumed page with a falsy
`next` cursor. -/
theorem chunkLoop_pages (b : Nat → Bool) (o : StoreOracle) (nowT : Nat) :
    ∀ (pages : List Page) (k : Nat) (after : Option String) (g : Groups)
      (cnt pageNo : Nat) (kv : KV) (t : Nat) (out : LoopOut),
      chunkLoop b o nowT k after (pages.map FetchOutcome.ok) g cnt pageNo kv t = out →
      ∃ ps rest : List Page,
        pages = ps ++ rest ∧
        out.rest = rest.map FetchOutcome.ok ∧
        out.groups = (mergePages g cnt ps).1 ∧
        out.cnt = (mergePages g cnt ps).2 ∧
        out.pageNo + (if out.completed = true then 1 else 0) = pageNo + ps.length + 1 ∧
        (out.completed = true → ∃ ps0 p, ps = ps0 ++ [p] ∧ jsFalsyCursor p.next = true) := by
  intro pages
  induction pages with
  | nil =>
      intro k after g cnt pageNo kv t out h
      refine ⟨[], [], by simp, ?_⟩
      by_cases hb : b k <;> subst h <;> simp [chunkLoop, hb, mergePages]
  | cons p ps ih =>
      intro k after g cnt pageNo kv t out h
      by_cases hb : b k
      · by_cases hf : jsFalsyCursor p.next
        · refine ⟨[p], ps, by simp, ?_⟩
          subst h
          simp [chunkLoop, hb, hf, mergePages]
          exact ⟨[], p, rfl, hf⟩
        · have hrec : chunkLoop b o nowT (k + 1) p.next (ps.map FetchOutcome.ok)
              (mergePage g cnt p.users).1 (mergePage g cnt p.users).2 (pageNo + 1)
              (safeKVOp o t kv (fun kv => { kv with flairScanHeartbeat := some nowT })).1
              (safeKVOp o t kv (fun kv => { kv with flairScanHeartbeat := some nowT })).2 = out := by
            rw [← h]
            simp [chunkLoop, hb, hf]
          obtain ⟨ps1, rest1, hsplit, hrest, hg, hc, hpg, hcomp⟩ :=
            ih (k + 1) p.next (mergePage g cnt p.users).1 (mergePage g cnt p.users).2
              (pageNo + 1) _ _ out hrec
          refine ⟨p :: ps1, rest1, by simp [hsplit], hrest, ?_, ?_, ?_, ?_⟩
          · simpa [mergePages] using hg
          · simpa [mergePages] using hc
          · simp only [List.length_cons]
            omega
          · intro hcm
            obtain ⟨ps0, pl, hps, hfl⟩ := hcomp hcm
            exact ⟨p :: ps0, pl, by simp [hps], hfl⟩
      · refine ⟨[], p :: ps, by simp, ?_⟩
        subst h
        simp [chunkLoop, hb, mergePages]

/-- Well-formedness passes to the tail. -/
theorem pagesWF_cons (p : Page) (l : List Page) (h : pagesWF (p :: l) = true) :
    pagesWF l = true := by
  cases l with
  | nil => rfl
  | cons q rest =>
      simp only [pagesWF, Bool.and_eq_true] at h
      exact h.2

/-- Well-formedness passes to every suffix. -/
theorem pagesWF_suffix (ps rest : List Page) (h : pagesWF (ps ++ rest) = true) :
    pagesWF rest = true := by
  induction ps with
  | nil => simpa using h
  | cons a as ih => exact ih (pagesWF_cons a (as ++ rest) h)

/-- In a well-formed source only the final page can carry a falsy cursor. -/
theorem pagesWF_mid_falsy (ps0 : List Page) :
    ∀ (p : Page) (rest : List Page), pagesWF (ps0 ++ p :: rest) = true →
      jsFalsyCursor p.next = true → rest = [] := by
  induction ps0 with
  | nil =>
      intro p rest h hf
      cases rest with
      | nil => rfl
      | cons q rs =>
          simp only [List.nil_append, pagesWF, Bool.and_eq_true] at h
          rw [hf] at h
          simp at h
  | cons a as ih =>
      intro p rest h hf
      exact ih p rest (pagesWF_cons a (as ++ p :: rest) h) hf

/-- When the loop throws, `buildFlairGroupsPaginatedChunk` rethrows that
very error and performs no further store operation. -/
theorem build_err (b : Nat → Bool) (o : StoreOracle) (nowT : Nat) (rOk : Bool)
    (after : Option String) (g : Groups) (cnt pageNo : Nat)
    (fetches : List FetchOutcome) (kv : KV) (t : Nat) (e : ChunkErr)
    (h : (chunkLoop b o nowT 0 after fetches g cnt pageNo kv t).err = some e) :
    (buildFlairGroupsPaginatedChunk b o nowT rOk after g cnt pageNo fetches kv t).res =
      Except.error e ∧
    (buildFlairGroupsPaginatedChunk b o nowT rOk after g cnt pageNo fetches kv t).kv =
      (chunkLoop b o nowT 0 after fetches g cnt pageNo kv t).kv := by
  simp [buildFlairGroupsPaginatedChunk, h]

/-- When the loop returns normally and the raw `flairScanStartedAt` read
succeeds, the function returns the checkpoint assembled from the loop
outputs (lines 195-202). -/
theorem build_ok (b : Nat → Bool) (o : StoreOracle) (nowT : Nat)
    (after : Option String) (g : Groups) (cnt pageNo : Nat)
    (fetches : List FetchOutcome) (kv : KV) (t : Nat)
    (h : (chunkLoop b o nowT 0 after fetches g cnt pageNo kv t).err = none) :
    (buildFlairGroupsPaginatedChunk b o nowT true after g cnt pageNo fetches kv t).res =
      Except.ok
        ⟨(chunkLoop b o nowT 0 after fetches g cnt pageNo kv t).groups,
          (chunkLoop b o nowT 0 after fetches g cnt pageNo kv t).after,
          timestampOf (chunkLoop b o nowT 0 after fetches g cnt pageNo kv t).kv nowT,
          (chunkLoop b o nowT 0 after fetches g cnt pageNo kv t).completed,
          (chunkLoop b o nowT 0 after fetches g cnt pageNo kv t).cnt,
          (chunkLoop b o nowT 0 after fetches g cnt pageNo kv t).pageNo, none⟩ ∧
    (buildFlairGroupsPaginatedChunk b o nowT true after g cnt pageNo fetches kv t).rest =
      (chunkLoop b o nowT 0 after fetches g cnt pageNo kv t).rest := by
  simp [buildFlairGroupsPaginatedChunk, h]

/-- Inversion: an `Except.ok` outcome of the chunk function determines the
loop's outputs. -/
theorem build_ok_inv (b : Nat → Bool) (o : StoreOracle) (nowT : Nat)
    (after : Option String) (g : Groups) (cnt pageNo : Nat)
    (fetches : List FetchOutcome) (kv : KV) (t : Nat) (ck : FlairScanResult)
    (h : (buildFlairGroupsPaginatedChunk b o nowT true after g cnt pageNo fetches kv t).res =
      Except.ok ck) :
    (chunkLoop b o nowT 0 after fetches g cnt pageNo kv t).err = none ∧
    ck.flairGroups = (chunkLoop b o nowT 0 after fetches g cnt pageNo kv t).groups ∧
    ck.scannedUsers = (chunkLoop b o nowT 0 after fetches g cnt pageNo kv t).cnt ∧
    ck.lastPageNumber = (chunkLoop b o nowT 0 after fetches g cnt pageNo kv t).pageNo ∧
    ck.after = (chunkLoop b o nowT 0 after fetches g cnt pageNo kv t).after ∧
    ck.completed = (chunkLoop b o nowT 0 after fetches g cnt pageNo kv t).completed ∧
    (buildFlairGroupsPaginatedChunk b o nowT true after g cnt pageNo fetches kv t).rest =
      (chunkLoop b o nowT 0 after fetches g cnt pageNo kv t).rest := by
  cases herr : (chunkLoop b o nowT 0 after fetches g cnt pageNo kv t).err with
  | some e =>
      have := (build_err b o nowT true after g cnt pageNo fetches kv t e herr).1
      rw [this] at h
      exact absurd h (by simp)
  | none =>
      obtain ⟨hres, hrest⟩ := build_ok b o nowT after g cnt pageNo fetches kv t herr
      rw [hres] at h
      have hck := Except.ok.inj h
      subst hck
      exact ⟨rfl, rfl, rfl, rfl, rfl, rfl, hrest⟩

/-- A completed generation over a well-formed source consumed every page:
its final checkpoint merges all of them starting from the chunk sequence's
initial aggregate and count, and its final page number exceeds the page
count by one per chunk that was cut short by the budget (every chunk but
the completing one). -/
theorem runGenFrom_spec (o : StoreOracle) (nowT : Nat) :
    ∀ (bs : List (Nat → Bool)) (b : Nat → Bool) (pages : List Page)
      (after : Option String) (g : Groups) (cnt pageNo : Nat) (kv : KV) (t : Nat)
      (ck : FlairScanResult),
      pagesWF pages = true →
      (runGenFrom o nowT b bs after g cnt pageNo (pages.map FetchOutcome.ok) kv t).res =
        Except.ok ck →
      ck.completed = true →
      ck.flairGroups = (mergePages g cnt pages).1 ∧
      ck.scannedUsers = (mergePages g cnt pages).2 ∧
      ck.lastPageNumber + 1 = pageNo + pages.length +
        (runGenFrom o nowT b bs after g cnt pageNo (pages.map FetchOutcome.ok) kv t).nChunks := by
  intro bs
  induction bs with
  | nil =>
      intro b pages after g cnt pageNo kv t ck hwf hres hcomp
      cases hbo : (buildFlairGroupsPaginatedChunk b o nowT true after g cnt pageNo
          (pages.map FetchOutcome.ok) kv t).res with
      | error e => simp [runGenFrom, hbo] at hres
      | ok ck1 =>
          have hck1 : ck1 = ck := by simpa [runGenFrom, hbo] using hres
          subst hck1
          obtain ⟨herr, hg, hc, hpg, haf, hcp, hrest⟩ :=
            build_ok_inv b o nowT after g cnt pageNo (pages.map FetchOutcome.ok) kv t ck1 hbo
          obtain ⟨ps1, rest1, hsplit, hrest1, hg1, hc1, hpg1, hcomp1⟩ :=
            chunkLoop_pages b o nowT pages 0 after g cnt pageNo kv t _ rfl
          have hoc : (chunkLoop b o nowT 0 after (pages.map FetchOutcome.ok) g cnt
              pageNo kv t).completed = true := by rw [← hcp]; exact hcomp
          obtain ⟨ps0, pl, hps, hfl⟩ := hcomp1 hoc
          have hwf' : pagesWF (ps0 ++ pl :: rest1) = true := by
            have : pages = ps0 ++ pl :: rest1 := by
              rw [hsplit, hps]; simp
            rwa [this] at hwf
          have hrest_nil : rest1 = [] := pagesWF_mid_falsy ps0 pl rest1 hwf' hfl
          have hpages : pages = ps1 := by rw [hsplit, hrest_nil]; simp
          subst hpages
          rw [hoc] at hpg1
          simp at hpg1
          refine ⟨by rw [hg, hg1], by rw [hc, hc1], ?_⟩
          have hn : (runGenFrom o nowT b [] after g cnt pageNo
              (pages.map FetchOutcome.ok) kv t).nChunks = 1 := by
            simp [runGenFrom, hbo]
          rw [hn, hpg]
          omega
  | cons b' bs' ih =>
      intro b pages after g cnt pageNo kv t ck hwf hres hcomp
      cases hbo : (buildFlairGroupsPaginatedChunk b o nowT true after g cnt pageNo
          (pages.map FetchOutcome.ok) kv t).res with
      | error e => simp [runGenFrom, hbo] at hres
      | ok ck1 =>
          obtain ⟨herr, hg, hc, hpg, haf, hcp, hrest⟩ :=
            build_ok_inv b o nowT after g cnt pageNo (pages.map FetchOutcome.ok) kv t ck1 hbo
          obtain ⟨ps1, rest1, hsplit, hrest1, hg1, hc1, hpg1, hcomp1⟩ :=
            chunkLoop_pages b o nowT pages 0 after g cnt pageNo kv t _ rfl
          by_cases hcpl : ck1.completed
          · have hck1 : ck1 = ck := by simpa [runGenFrom, hbo, hcpl] using hres
            subst hck1
            have hoc : (chunkLoop b o nowT 0 after (pages.map FetchOutcome.ok) g cnt
                pageNo kv t).completed = true := by rw [← hcp]; exact hcpl
            obtain ⟨ps0, pl, hps, hfl⟩ := hcomp1 hoc
            have hwf' : pagesWF (ps0 ++ pl :: rest1) = true := by
              have : pages = ps0 ++ pl :: rest1 := by
                rw [hsplit, hps]; simp
              rwa [this] at hwf
            have hrest_nil : rest1 = [] := pagesWF_mid_falsy ps0 pl rest1 hwf' hfl
            have hpages : pages = ps1 := by rw [hsplit, hrest_nil]; simp
            subst hpages
            rw [hoc] at hpg1
            simp at hpg1
            refine ⟨by rw [hg, hg1], by rw [hc, hc1], ?_⟩
            have hn : (runGenFrom o nowT b (b' :: bs') after g cnt pageNo
                (pages.map FetchOutcome.ok) kv t).nChunks = 1 := by
              simp [runGenFrom, hbo, hcpl]
            rw [hn, hpg]
            omega
          · have hoc : (chunkLoop b o nowT 0 after (pages.map FetchOutcome.ok) g cnt
                pageNo kv t).completed = false := by
              rw [← hcp]; simpa using hcpl
            have hbrest : (buildFlairGroupsPaginatedChunk b o nowT true after g cnt pageNo
                (pages.map FetchOutcome.ok) kv t).rest = rest1.map FetchOutcome.ok := by
              rw [hrest, hrest1]
            have hres2 : (runGenFrom o nowT b' bs' ck1.after ck1.flairGroups
                ck1.scannedUsers ck1.lastPageNumber (rest1.map FetchOutcome.ok)
                (buildFlairGroupsPaginatedChunk b o nowT true after g cnt pageNo
                  (pages.map FetchOutcome.ok) kv t).kv
                (buildFlairGroupsPaginatedChunk b o nowT true after g cnt pageNo
                  (pages.map FetchOutcome.ok) kv t).tick).res = Except.ok ck := by
              rw [← hbrest]
              simpa [runGenFrom, hbo, hcpl] using hres
            have hwf2 : pagesWF rest1 = true := by
              rw [hsplit] at hwf
              exact pagesWF_suffix ps1 rest1 hwf
            obtain ⟨ihg, ihc, ihpg⟩ := ih b' rest1 ck1.after ck1.flairGroups
              ck1.scannedUsers ck1.lastPageNumber _ _ ck hwf2 hres2 hcomp
            have hmerge := mergePages_append ps1 rest1 g cnt
            rw [hoc] at hpg1
            simp at hpg1
            have hn : (runGenFrom o nowT b (b' :: bs') after g cnt pageNo
                (pages.map FetchOutcome.ok) kv t).nChunks =
                (runGenFrom o nowT b' bs' ck1.after ck1.flairGroups ck1.scannedUsers
                  ck1.lastPageNumber (rest1.map FetchOutcome.ok)
                  (buildFlairGroupsPaginatedChunk b o nowT true after g cnt pageNo
                    (pages.map FetchOutcome.ok) kv t).kv
                  (buildFlairGroupsPaginatedChunk b o nowT true after g cnt pageNo
                    (pages.map FetchOutcome.ok) kv t).tick).nChunks + 1 := by
              rw [← hbrest]
              simp [runGenFrom, hbo, hcpl]
            constructor
            · rw [ihg, hg, hg1, hsplit, hmerge, ← hg1, ← hg, ← hc1, ← hc]
            · constructor
              · rw [ihc, hc, hc1, hsplit, hmerge, ← hg1, ← hg, ← hc1, ← hc]
              · rw [hn]
                have hlen : pages.length = ps1.length + rest1.length := by
                  rw [hsplit]; simp
                rw [hpg, hc] at *
                omega

/-- Componentwise form of `chunkLoop_preserves`. -/
theorem chunkLoop_preserves' (b : Nat → Bool) (o : StoreOracle) (nowT : Nat)
    (fetches : List FetchOutcome) (k : Nat) (after : Option String) (g : Groups)
    (cnt pageNo : Nat) (kv : KV) (t : Nat) :
    (chunkLoop b o nowT k after fetches g cnt pageNo kv t).kv.flairScanResult =
        kv.flairScanResult ∧
    (chunkLoop b o nowT k after fetches g cnt pageNo kv t).kv.flairScanPartial =
        kv.flairScanPartial ∧
    (chunkLoop b o nowT k after fetches g cnt pageNo kv t).kv.flairScanStartedAt =
        kv.flairScanStartedAt := by
  have := chunkLoop_preserves b o nowT fetches k after g cnt pageNo kv t
  simpa [kvFrame, Prod.ext_iff] using this

/-- Componentwise form of `chunkLoop_ctrl`. -/
theorem chunkLoop_ctrl' (b : Nat → Bool) (o o' : StoreOracle) (nowT : Nat)
    (fetches : List FetchOutcome) (k : Nat) (after : Option String) (g : Groups)
    (cnt pageNo : Nat) (kv kv' : KV) (t t' : Nat) :
    (chunkLoop b o nowT k after fetches g cnt pageNo kv t).err =
      (chunkLoop b o' nowT k after fetches g cnt pageNo kv' t').err ∧
    (chunkLoop b o nowT k after fetches g cnt pageNo kv t).groups =
      (chunkLoop b o' nowT k after fetches g cnt pageNo kv' t').groups ∧
    (chunkLoop b o nowT k after fetches g cnt pageNo kv t).cnt =
      (chunkLoop b o' nowT k after fetches g cnt pageNo kv' t').cnt ∧
    (chunkLoop b o nowT k after fetches g cnt pageNo kv t).pageNo =
      (chunkLoop b o' nowT k after fetches g cnt pageNo kv' t').pageNo ∧
    (chunkLoop b o nowT k after fetches g cnt pageNo kv t).after =
      (chunkLoop b o' nowT k after fetches g cnt pageNo kv' t').after ∧
    (chunkLoop b o nowT k after fetches g cnt pageNo kv t).completed =
      (chunkLoop b o' nowT k after fetches g cnt pageNo kv' t').completed ∧
    (chunkLoop b o nowT k after fetches g cnt pageNo kv t).rest =
      (chunkLoop b o' nowT k after fetches g cnt pageNo kv' t').rest := by
  have := chunkLoop_ctrl b o o' nowT fetches k after g cnt pageNo kv kv' t t'
  simpa [ctrlView, Prod.ext_iff] using this

/-- With a failing `flairScanStartedAt` read, the chunk function never
returns a checkpoint: it rethrows the loop's error or throws the read
failure. -/
theorem build_readfail (b : Nat → Bool) (o : StoreOracle) (nowT : Nat)
    (after : Option String) (g : Groups) (cnt pageNo : Nat)
    (fetches : List FetchOutcome) (kv : KV) (t : Nat) :
    (buildFlairGroupsPaginatedChunk b o nowT false after g cnt pageNo fetches kv t).res =
      match (chunkLoop b o nowT 0 after fetches g cnt pageNo kv t).err with
      | some e => Except.error e
      | none => Except.error ChunkErr.storeReadErr := by
  cases herr : (chunkLoop b o nowT 0 after fetches g cnt pageNo kv t).err with
  | some e => simp [buildFlairGroupsPaginatedChunk, herr]
  | none => simp [buildFlairGroupsPaginatedChunk, herr]

/-! Claim theorems. -/

/-- The final checkpoint of the spec's two-page scenario. -/
def scenarioCk : FlairScanResult :=
  ⟨[("gold", ["u1", "u2", "u4"]), ("silver", ["u3", "u5", "u6"])], none, 7, true, 6, 2, none⟩

/-- C1 (counterexample): the claim counts members "with a non-empty label",
but the code trims the label first (line 157).  On a completed generation
over a one-page source whose single member carries the label consisting of
one space - a non-empty label - the final checkpoint has
`scannedUsers = 0`, while the number of members with a non-empty label is
1. -/
theorem c1_counterexample :
    (runGeneration alwaysOk 7 alwaysTime [] pagesSpaceLabel kvEmpty).res =
      Except.ok ⟨[], none, 7, true, 0, 1, none⟩ ∧
    pagesRawNonEmptyCount pagesSpaceLabel = 1 ∧
    ((0 : Nat) = 1 → False) := by decide

/-- C1 (amended): for every storage oracle, budget sequence and well-formed
page source, an error-free generation that reaches a completed final
checkpoint has consumed every page, its `scannedUsers` equals the total
number of members with a label that is non-empty after trimming across all
pages, independent of where the chunk boundaries fall, and its groups are
the in-order merge of all pages; in particular the spec's two-page
gold/silver scenario ends with groups of 3 identifiers each,
`scannedUsers = 6` and `completed = true` (see the witness). -/
theorem c1_scanned_total (o : StoreOracle) (nowT : Nat) (b : Nat → Bool)
    (bs : List (Nat → Bool)) (pages : List Page) (kv : KV) (ck : FlairScanResult)
    (hwf : pagesWF pages = true)
    (hres : (runGeneration o nowT b bs pages kv).res = Except.ok ck)
    (hcomp : ck.completed = true) :
    ck.scannedUsers = pagesValidCount pages ∧
    ck.flairGroups = (mergePages [] 0 pages).1 := by
  have hspec := runGenFrom_spec o nowT bs b pages none [] 0 0 kv 0 ck hwf
    (by simpa [runGeneration] using hres) hcomp
  refine ⟨?_, hspec.1⟩
  rw [hspec.2.1, mergePages_cnt]
  omega

/-- C1 (witness): the amended theorem applied to the spec's scenario. -/
theorem c1_witness :
    pagesWF pagesScenario = true ∧
    (runGeneration alwaysOk 7 alwaysTime [] pagesScenario kvEmpty).res =
      Except.ok scenarioCk ∧
    scenarioCk.completed = true ∧
    scenarioCk.scannedUsers = pagesValidCount pagesScenario ∧
    scenarioCk.flairGroups = (mergePages [] 0 pagesScenario).1 ∧
    pagesValidCount pagesScenario = 6 ∧
    scenarioCk.flairGroups =
      [("gold", ["u1", "u2", "u4"]), ("silver", ["u3", "u5", "u6"])] := by
  have h1 : pagesWF pagesScenario = true := by decide
  have h2 : (runGeneration alwaysOk 7 alwaysTime [] pagesScenario kvEmpty).res =
      Except.ok scenarioCk := by decide
  have h3 : scenarioCk.completed = true := by decide
  have hmain := c1_scanned_total alwaysOk 7 alwaysTime [] pagesScenario kvEmpty
    scenarioCk h1 h2 h3
  exact ⟨h1, h2, h3, hmain.1, hmain.2, by decide, by decide⟩

/-- C2 (counterexample): the page number is incremented before the budget
check (line 124), so a budget-interrupted chunk overshoots by one.  A
generation of two chunks over a two-page source - the first chunk's budget
expiring after one page - ends with `lastPageNumber = 3` although exactly
`P = 2` pages were fetched. -/
theorem c2_counterexample :
    (runGeneration alwaysOk 7 oneIterTime [alwaysTime] pagesTwoEmpty kvEmpty).res =
      Except.ok ⟨[], none, 7, true, 0, 3, none⟩ ∧
    (runGeneration alwaysOk 7 oneIterTime [alwaysTime] pagesTwoEmpty kvEmpty).nChunks = 2 ∧
    pagesTwoEmpty.length = 2 ∧
    ((3 : Nat) = 2 → False) := by decide

/-- C2 (amended): for a completed generation of N chunk invocations over a
well-formed source of P pages, the final `lastPageNumber` is P + (N - 1),
not P: every chunk that the budget cut short contributes one extra
increment (the page number is incremented before the budget check).
Within a generation the page number never decreases: every single chunk
run strictly increases it. -/
theorem c2_lastPageNumber (o : StoreOracle) (nowT : Nat) (b : Nat → Bool)
    (bs : List (Nat → Bool)) (pages : List Page) (kv : KV) (ck : FlairScanResult)
    (hwf : pagesWF pages = true)
    (hres : (runGeneration o nowT b bs pages kv).res = Except.ok ck)
    (hcomp : ck.completed = true) :
    ck.lastPageNumber + 1 =
      pages.length + (runGeneration o nowT b bs pages kv).nChunks ∧
    ∀ (b' : Nat → Bool) (o' : StoreOracle) (nowT' k : Nat) (after : Option String)
      (g : Groups) (cnt pageNo : Nat) (fetches : List FetchOutcome) (kv' : KV) (t : Nat),
      pageNo < (chunkLoop b' o' nowT' k after fetches g cnt pageNo kv' t).pageNo := by
  have hspec := runGenFrom_spec o nowT bs b pages none [] 0 0 kv 0 ck hwf
    (by simpa [runGeneration] using hres) hcomp
  constructor
  · have := hspec.2.2
    simpa [runGeneration] using this
  · intro b' o' nowT' k after g cnt pageNo fetches kv' t
    exact chunkLoop_pageNo_gt b' o' nowT' fetches k after g cnt pageNo kv' t

/-- C2 (witness): the amended theorem applied to the scenario source with
the first chunk budget-limited to one page: 2 pages, 2 chunks,
`lastPageNumber = 3`. -/
theorem c2_witness :
    pagesWF pagesScenario = true ∧
    (runGeneration alwaysOk 7 oneIterTime [alwaysTime] pagesScenario kvEmpty).res =
      Except.ok ⟨[("gold", ["u1", "u2", "u4"]), ("silver", ["u3", "u5", "u6"])],
        none, 7, true, 6, 3, none⟩ ∧
    (3 : Nat) + 1 = pagesScenario.length +
      (runGeneration alwaysOk 7 oneIterTime [alwaysTime] pagesScenario kvEmpty).nChunks := by
  have h1 : pagesWF pagesScenario = true := by decide
  have h2 : (runGeneration alwaysOk 7 oneIterTime [alwaysTime] pagesScenario kvEmpty).res =
      Except.ok ⟨[("gold", ["u1", "u2", "u4"]), ("silver", ["u3", "u5", "u6"])],
        none, 7, true, 6, 3, none⟩ := by decide
  have hmain := (c2_lastPageNumber alwaysOk 7 oneIterTime [alwaysTime] pagesScenario
    kvEmpty _ h1 h2 (by decide)).1
  exact ⟨h1, h2, hmain⟩

/-- A page source that delivers one good page and then throws. -/
def fetchesThrowP2 : List FetchOutcome :=
  [FetchOutcome.ok ⟨[⟨some "u1", some "gold"⟩], some "c1"⟩, FetchOutcome.throwErr "boom"]

/-- C3 (confirmed): under fully successful storage, when the chunk function
propagates a page-fetch error or a shape error, the store afterwards holds
`flairScanFailed = true`, the captured message (`String(err)` for a fetch
error, the fixed text for a malformed response), `flairScanInProgress =
false`, and the `flairScanResult` key is exactly what it was before the
attempt. -/
theorem c3_error_persists (b : Nat → Bool) (nowT : Nat) (after : Option String)
    (g : Groups) (cnt pageNo : Nat) (fetches : List FetchOutcome) (kv : KV) (t : Nat) :
    (∀ m, (buildFlairGroupsPaginatedChunk b alwaysOk nowT true after g cnt pageNo
        fetches kv t).res = Except.error (ChunkErr.fetchErr m) →
      (buildFlairGroupsPaginatedChunk b alwaysOk nowT true after g cnt pageNo
        fetches kv t).kv.flairScanFailed = some true ∧
      (buildFlairGroupsPaginatedChunk b alwaysOk nowT true after g cnt pageNo
        fetches kv t).kv.flairScanFailedMessage = some m ∧
      (buildFlairGroupsPaginatedChunk b alwaysOk nowT true after g cnt pageNo
        fetches kv t).kv.flairScanInProgress = some false ∧
      (buildFlairGroupsPaginatedChunk b alwaysOk nowT true after g cnt pageNo
        fetches kv t).kv.flairScanResult = kv.flairScanResult) ∧
    ((buildFlairGroupsPaginatedChunk b alwaysOk nowT true after g cnt pageNo
        fetches kv t).res = Except.error ChunkErr.shapeErr →
      (buildFlairGroupsPaginatedChunk b alwaysOk nowT true after g cnt pageNo
        fetches kv t).kv.flairScanFailed = some true ∧
      (buildFlairGroupsPaginatedChunk b alwaysOk nowT true after g cnt pageNo
        fetches kv t).kv.flairScanFailedMessage =
          some "Invalid response from getUserFlair" ∧
      (buildFlairGroupsPaginatedChunk b alwaysOk nowT true after g cnt pageNo
        fetches kv t).kv.flairScanInProgress = some false ∧
      (buildFlairGroupsPaginatedChunk b alwaysOk nowT true after g cnt pageNo
        fetches kv t).kv.flairScanResult = kv.flairScanResult) := by
  cases herr : (chunkLoop b alwaysOk nowT 0 after fetches g cnt pageNo kv t).err with
  | none =>
      obtain ⟨hres, _⟩ := build_ok b alwaysOk nowT after g cnt pageNo fetches kv t herr
      constructor
      · intro m hm; rw [hres] at hm; exact absurd hm (by simp)
      · intro hm; rw [hres] at hm; exact absurd hm (by simp)
  | some e =>
      obtain ⟨hres, hkv⟩ := build_err b alwaysOk nowT true after g cnt pageNo fetches kv t e herr
      have hpres := (chunkLoop_preserves' b alwaysOk nowT fetches 0 after g cnt pageNo kv t).1
      constructor
      · intro m hm
        rw [hres] at hm
        have he : e = ChunkErr.fetchErr m := Except.error.inj hm
        subst he
        have hk := (chunkLoop_err_kv b nowT fetches 0 after g cnt pageNo kv t).1 m herr
        rw [hkv]
        exact ⟨hk.1, hk.2.1, hk.2.2, hpres⟩
      · intro hm
        rw [hres] at hm
        have he : e = ChunkErr.shapeErr := Except.error.inj hm
        subst he
        have hk := (chunkLoop_err_kv b nowT fetches 0 after g cnt pageNo kv t).2 herr
        rw [hkv]
        exact ⟨hk.1, hk.2.1, hk.2.2, hpres⟩

/-- C3 (witness): the theorem applied to a source that throws on page 2,
with every store key initially set: the failure flags are persisted and
`flairScanResult` keeps its pre-attempt value. -/
theorem c3_witness :
    (buildFlairGroupsPaginatedChunk alwaysTime alwaysOk 7 true none [] 0 0
      fetchesThrowP2 kvAllSet 0).res = Except.error (ChunkErr.fetchErr "boom") ∧
    (buildFlairGroupsPaginatedChunk alwaysTime alwaysOk 7 true none [] 0 0
      fetchesThrowP2 kvAllSet 0).kv.flairScanFailed = some true ∧
    (buildFlairGroupsPaginatedChunk alwaysTime alwaysOk 7 true none [] 0 0
      fetchesThrowP2 kvAllSet 0).kv.flairScanFailedMessage = some "boom" ∧
    (buildFlairGroupsPaginatedChunk alwaysTime alwaysOk 7 true none [] 0 0
      fetchesThrowP2 kvAllSet 0).kv.flairScanInProgress = some false ∧
    (buildFlairGroupsPaginatedChunk alwaysTime alwaysOk 7 true none [] 0 0
      fetchesThrowP2 kvAllSet 0).kv.flairScanResult = kvAllSet.flairScanResult := by
  have h : (buildFlairGroupsPaginatedChunk alwaysTime alwaysOk 7 true none [] 0 0
      fetchesThrowP2 kvAllSet 0).res = Except.error (ChunkErr.fetchErr "boom") := by decide
  have hmain := (c3_error_persists alwaysTime 7 none [] 0 0 fetchesThrowP2 kvAllSet 0).1
    "boom" h
  exact ⟨h, hmain.1, hmain.2.1, hmain.2.2.1, hmain.2.2.2⟩

/-- C6 (counterexample): the claim says only transport/shape page errors
can propagate out of the chunk function, but the raw
`kvStore.get("flairScanStartedAt")` read at line 192 is not failure
contained: with every page fetch succeeding, a failure of that single
storage read aborts the chunk as a thrown failure. -/
theorem c6_counterexample :
    (buildFlairGroupsPaginatedChunk alwaysTime alwaysOk 7 false none [] 0 0
      [FetchOutcome.ok ⟨[], none⟩] kvEmpty 0).res = Except.error ChunkErr.storeReadErr ∧
    (ChunkErr.storeReadErr = ChunkErr.shapeErr → False) ∧
    (∀ m, ChunkErr.storeReadErr = ChunkErr.fetchErr m → False) := by
  refine ⟨by decide, by decide, ?_⟩
  intro m h
  exact ChunkErr.noConfusion h

/-- C6 (amended): every storage write or delete failure is contained: the
chunk function's outcome - the thrown error or the returned checkpoint -
is identical under an arbitrary write/delete oracle and under fully
successful storage; at worst a heartbeat or checkpoint write silently does
not happen.  Only the unguarded `flairScanStartedAt` read (see the
counterexample) breaks the claim's "read" part. -/
theorem c6_write_failures_contained (b : Nat → Bool) (o : StoreOracle) (nowT : Nat)
    (rOk : Bool) (after : Option String) (g : Groups) (cnt pageNo : Nat)
    (fetches : List FetchOutcome) (kv : KV) (t : Nat) :
    (buildFlairGroupsPaginatedChunk b o nowT rOk after g cnt pageNo fetches kv t).res =
      (buildFlairGroupsPaginatedChunk b alwaysOk nowT rOk after g cnt pageNo fetches kv t).res := by
  obtain ⟨he, hg, hc, hp, ha, hcm, hr⟩ :=
    chunkLoop_ctrl' b o alwaysOk nowT fetches 0 after g cnt pageNo kv kv t t
  cases herr : (chunkLoop b o nowT 0 after fetches g cnt pageNo kv t).err with
  | some e =>
      have herr2 : (chunkLoop b alwaysOk nowT 0 after fetches g cnt pageNo kv t).err =
          some e := by rw [← he, herr]
      rw [(build_err b o nowT rOk after g cnt pageNo fetches kv t e herr).1,
        (build_err b alwaysOk nowT rOk after g cnt pageNo fetches kv t e herr2).1]
  | none =>
      have herr2 : (chunkLoop b alwaysOk nowT 0 after fetches g cnt pageNo kv t).err =
          none := by rw [← he, herr]
      cases rOk with
      | false =>
          rw [build_readfail b o nowT after g cnt pageNo fetches kv t,
            build_readfail b alwaysOk nowT after g cnt pageNo fetches kv t, herr, herr2]
      | true =>
          rw [(build_ok b o nowT after g cnt pageNo fetches kv t herr).1,
            (build_ok b alwaysOk nowT after g cnt pageNo fetches kv t herr2).1]
          have hts : timestampOf (chunkLoop b o nowT 0 after fetches g cnt pageNo kv t).kv
              nowT = timestampOf (chunkLoop b alwaysOk nowT 0 after fetches g cnt pageNo
              kv t).kv nowT := by
            unfold timestampOf
            rw [(chunkLoop_preserves' b o nowT fetches 0 after g cnt pageNo kv t).2.2,
              (chunkLoop_preserves' b alwaysOk nowT fetches 0 after g cnt pageNo kv t).2.2]
          rw [hg, hc, hp, ha, hcm, hts]

/-- C10 (confirmed): a chunk invocation whose starting count equals the
total number of identifiers in the starting aggregate returns a checkpoint
whose `scannedUsers` equals the total number of identifiers across its
groups: each accepted member appends exactly one identifier and increments
the count exactly once. -/
theorem c10_count_consistent (b : Nat → Bool) (o : StoreOracle) (nowT : Nat)
    (rOk : Bool) (after : Option String) (g : Groups) (cnt pageNo : Nat)
    (fetches : List FetchOutcome) (kv : KV) (t : Nat) (ck : FlairScanResult)
    (hin : cnt = groupsTotal g)
    (hres : (buildFlairGroupsPaginatedChunk b o nowT rOk after g cnt pageNo
      fetches kv t).res = Except.ok ck) :
    ck.scannedUsers = groupsTotal ck.flairGroups := by
  cases rOk with
  | false =>
      rw [build_readfail b o nowT after g cnt pageNo fetches kv t] at hres
      cases herr : (chunkLoop b o nowT 0 after fetches g cnt pageNo kv t).err with
      | some e => rw [herr] at hres; exact absurd hres (by simp)
      | none => rw [herr] at hres; exact absurd hres (by simp)
  | true =>
      obtain ⟨herr, hg, hc, _⟩ :=
        build_ok_inv b o nowT after g cnt pageNo fetches kv t ck hres
      rw [hc, hg]
      exact chunkLoop_consistent b o nowT fetches 0 after g cnt pageNo kv t hin

/-- C10 (witness): starting from a consistent aggregate with one identifier
and count 1, a page with one accepted member yields count 2 and two
identifiers. -/
theorem c10_witness :
    (1 : Nat) = groupsTotal [("gold", ["a"])] ∧
    (buildFlairGroupsPaginatedChunk alwaysTime alwaysOk 7 true none [("gold", ["a"])] 1 0
      [FetchOutcome.ok ⟨[⟨some "b", some "gold"⟩], none⟩] kvEmpty 0).res =
      Except.ok ⟨[("gold", ["a", "b"])], none, 7, true, 2, 1, none⟩ ∧
    (2 : Nat) = groupsTotal [("gold", ["a", "b"])] := by
  have h1 : (1 : Nat) = groupsTotal [("gold", ["a"])] := by decide
  have h2 : (buildFlairGroupsPaginatedChunk alwaysTime alwaysOk 7 true none
      [("gold", ["a"])] 1 0 [FetchOutcome.ok ⟨[⟨some "b", some "gold"⟩], none⟩]
      kvEmpty 0).res = Except.ok ⟨[("gold", ["a", "b"])], none, 7, true, 2, 1, none⟩ := by
    decide
  have hmain := c10_count_consistent alwaysTime alwaysOk 7 true none [("gold", ["a"])] 1 0
    [FetchOutcome.ok ⟨[⟨some "b", some "gold"⟩], none⟩] kvEmpty 0 _ h1 h2
  exact ⟨h1, h2, by simpa using hmain⟩

/-- The persistence phase stores nothing but the given checkpoint: the
result key afterwards holds its previous value or that checkpoint; the
partial key holds its previous value, that checkpoint, or nothing. -/
theorem persistPhase_kv (o : StoreOracle) (nowT : Nat) (result : FlairScanResult)
    (completed : Bool) (kv : KV) (t : Nat) :
    ((persistPhase o nowT result completed kv t).1.flairScanResult = kv.flairScanResult ∨
      (persistPhase o nowT result completed kv t).1.flairScanResult = some result) ∧
    ((persistPhase o nowT result completed kv t).1.flairScanPartial = kv.flairScanPartial ∨
      (persistPhase o nowT result completed kv t).1.flairScanPartial = some result ∨
      (persistPhase o nowT result completed kv t).1.flairScanPartial = none) := by
  cases completed <;> simp [persistPhase, safeKVOp] <;> split_ifs <;> simp

/-- After a successful chunk, the `flairScanResult` and `flairScanPartial`
keys hold either their previous value, the returned checkpoint, or (for
the deleted partial) nothing: no other checkpoint value is ever stored. -/
theorem build_kv_store (b : Nat → Bool) (o : StoreOracle) (nowT : Nat)
    (after : Option String) (g : Groups) (cnt pageNo : Nat)
    (fetches : List FetchOutcome) (kv : KV) (t : Nat) (ck : FlairScanResult)
    (hres : (buildFlairGroupsPaginatedChunk b o nowT true after g cnt pageNo
      fetches kv t).res = Except.ok ck) :
    ((buildFlairGroupsPaginatedChunk b o nowT true after g cnt pageNo fetches kv
        t).kv.flairScanResult = kv.flairScanResult ∨
      (buildFlairGroupsPaginatedChunk b o nowT true after g cnt pageNo fetches kv
        t).kv.flairScanResult = some ck) ∧
    ((buildFlairGroupsPaginatedChunk b o nowT true after g cnt pageNo fetches kv
        t).kv.flairScanPartial = kv.flairScanPartial ∨
      (buildFlairGroupsPaginatedChunk b o nowT true after g cnt pageNo fetches kv
        t).kv.flairScanPartial = some ck ∨
      (buildFlairGroupsPaginatedChunk b o nowT true after g cnt pageNo fetches kv
        t).kv.flairScanPartial = none) := by
  have hpres := chunkLoop_preserves' b o nowT fetches 0 after g cnt pageNo kv t
  cases herr : (chunkLoop b o nowT 0 after fetches g cnt pageNo kv t).err with
  | some e =>
      rw [(build_err b o nowT true after g cnt pageNo fetches kv t e herr).1] at hres
      exact absurd hres (by simp)
  | none =>
      obtain ⟨hresok, _⟩ := build_ok b o nowT after g cnt pageNo fetches kv t herr
      rw [hresok] at hres
      have hck := Except.ok.inj hres
      subst hck
      have hkv : (buildFlairGroupsPaginatedChunk b o nowT true after g cnt pageNo
          fetches kv t).kv =
          (persistPhase o nowT
            ⟨(chunkLoop b o nowT 0 after fetches g cnt pageNo kv t).groups,
              (chunkLoop b o nowT 0 after fetches g cnt pageNo kv t).after,
              timestampOf (chunkLoop b o nowT 0 after fetches g cnt pageNo kv t).kv nowT,
              (chunkLoop b o nowT 0 after fetches g cnt pageNo kv t).completed,
              (chunkLoop b o nowT 0 after fetches g cnt pageNo kv t).cnt,
              (chunkLoop b o nowT 0 after fetches g cnt pageNo kv t).pageNo, none⟩
            (chunkLoop b o nowT 0 after fetches g cnt pageNo kv t).completed
            (chunkLoop b o nowT 0 after fetches g cnt pageNo kv t).kv
            (chunkLoop b o nowT 0 after fetches g cnt pageNo kv t).tick).1 := by
        simp [buildFlairGroupsPaginatedChunk, herr]
      rw [hkv]
      have hper := persistPhase_kv o nowT
        ⟨(chunkLoop b o nowT 0 after fetches g cnt pageNo kv t).groups,
          (chunkLoop b o nowT 0 after fetches g cnt pageNo kv t).after,
          timestampOf (chunkLoop b o nowT 0 after fetches g cnt pageNo kv t).kv nowT,
          (chunkLoop b o nowT 0 after fetches g cnt pageNo kv t).completed,
          (chunkLoop b o nowT 0 after fetches g cnt pageNo kv t).cnt,
          (chunkLoop b o nowT 0 after fetches g cnt pageNo kv t).pageNo, none⟩
        (chunkLoop b o nowT 0 after fetches g cnt pageNo kv t).completed
        (chunkLoop b o nowT 0 after fetches g cnt pageNo kv t).kv
        (chunkLoop b o nowT 0 after fetches g cnt pageNo kv t).tick
      constructor
      · rcases hper.1 with h | h
        · exact Or.inl (h.trans hpres.1)
        · exact Or.inr h
      · rcases hper.2 with h | h | h
        · exact Or.inl (h.trans hpres.2.1)
        · exact Or.inr (Or.inl h)
        · exact Or.inr (Or.inr h)

/-- C8 (counterexample): the claim allows only a null cursor in a completed
checkpoint, but the loop's exit test is JS falsiness (`!currentAfter`,
line 185): a page whose `next` is the empty string yields a returned (and
persisted) checkpoint with `completed = true` and `after = ""`, which is
not null. -/
theorem c8_counterexample :
    (buildFlairGroupsPaginatedChunk alwaysTime alwaysOk 7 true none [] 0 0
      [FetchOutcome.ok ⟨[], some ""⟩] kvEmpty 0).res =
      Except.ok ⟨[], some "", 7, true, 0, 1, none⟩ ∧
    (some "" ≠ (none : Option String)) := by
  refine ⟨by decide, by simp⟩

/-- C8 (amended): every checkpoint returned by the chunk function satisfies
alternatively: `completed = true` implies the cursor is falsy - null or the
empty string - and a cursor that is neither implies `completed = false`;
the store's result and partial keys afterwards hold nothing but their
previous value, that same checkpoint, or (the partial after deletion)
nothing. -/
theorem c8_terminal_cursor (b : Nat → Bool) (o : StoreOracle) (nowT : Nat)
    (rOk : Bool) (after : Option String) (g : Groups) (cnt pageNo : Nat)
    (fetches : List FetchOutcome) (kv : KV) (t : Nat) (ck : FlairScanResult)
    (hres : (buildFlairGroupsPaginatedChunk b o nowT rOk after g cnt pageNo
      fetches kv t).res = Except.ok ck) :
    (ck.completed = true → ck.after = none ∨ ck.after = some "") ∧
    (ck.after ≠ none → ck.after ≠ some "" → ck.completed = false) ∧
    ((buildFlairGroupsPaginatedChunk b o nowT rOk after g cnt pageNo fetches kv
        t).kv.flairScanResult = kv.flairScanResult ∨
      (buildFlairGroupsPaginatedChunk b o nowT rOk after g cnt pageNo fetches kv
        t).kv.flairScanResult = some ck) ∧
    ((buildFlairGroupsPaginatedChunk b o nowT rOk after g cnt pageNo fetches kv
        t).kv.flairScanPartial = kv.flairScanPartial ∨
      (buildFlairGroupsPaginatedChunk b o nowT rOk after g cnt pageNo fetches kv
        t).kv.flairScanPartial = some ck ∨
      (buildFlairGroupsPaginatedChunk b o nowT rOk after g cnt pageNo fetches kv
        t).kv.flairScanPartial = none) := by
  cases rOk with
  | false =>
      rw [build_readfail b o nowT after g cnt pageNo fetches kv t] at hres
      cases herr : (chunkLoop b o nowT 0 after fetches g cnt pageNo kv t).err with
      | some e => rw [herr] at hres; exact absurd hres (by simp)
      | none => rw [herr] at hres; exact absurd hres (by simp)
  | true =>
      obtain ⟨herr, hg, hc, hpg, ha, hcm, hrest⟩ :=
        build_ok_inv b o nowT after g cnt pageNo fetches kv t ck hres
      have hcompl : ck.completed = true → ck.after = none ∨ ck.after = some "" := by
        intro h
        have hoc : (chunkLoop b o nowT 0 after fetches g cnt pageNo kv t).completed =
            true := by rw [← hcm]; exact h
        have hfal := chunkLoop_completed_falsy b o nowT fetches 0 after g cnt pageNo kv t hoc
        rw [ha]
        exact (jsFalsy_iff _).1 hfal
      refine ⟨hcompl, ?_, build_kv_store b o nowT after g cnt pageNo fetches kv t ck hres⟩
      intro h1 h2
      by_contra hcf
      have : ck.completed = true := by
        cases hcc : ck.completed with
        | false => exact absurd hcc hcf
        | true => rfl
      rcases hcompl this with h | h
      · exact h1 h
      · exact h2 h

/-- C8 (witness): the amended theorem applied to the empty-cursor source:
the completed checkpoint's cursor is null or empty. -/
theorem c8_witness :
    (buildFlairGroupsPaginatedChunk alwaysTime alwaysOk 7 true none [] 0 0
      [FetchOutcome.ok ⟨[], some ""⟩] kvEmpty 0).res =
      Except.ok ⟨[], some "", 7, true, 0, 1, none⟩ ∧
    ((some "" : Option String) = none ∨ (some "" : Option String) = some "") := by
  have h : (buildFlairGroupsPaginatedChunk alwaysTime alwaysOk 7 true none [] 0 0
      [FetchOutcome.ok ⟨[], some ""⟩] kvEmpty 0).res =
      Except.ok ⟨[], some "", 7, true, 0, 1, none⟩ := by decide
  have hmain := (c8_terminal_cursor alwaysTime alwaysOk 7 true none [] 0 0
    [FetchOutcome.ok ⟨[], some ""⟩] kvEmpty 0 _ h).1 (by decide)
  exact ⟨h, hmain⟩

/-- C4 (code bug): line 111 comments "clone starting cumulative so we can
mutate locally", but `{ ...start }` is a shallow spread: the array objects
are shared with the caller's record, and `push` (line 160) mutates them in
place.  At reference level: the caller's aggregate maps "gold" to the
array object behind reference 0 holding `["a"]`; after the chunk's merge
loop runs on the spread copy with a page member labelled "gold", the
caller reads `["a", "b"]` through its own, untouched binding - its
aggregate was mutated. -/
theorem c4_shallow_clone_mutates :
    readRec [["a"]] [("gold", 0)] = [("gold", ["a"])] ∧
    readRec (mergePageRef [["a"]] (shallowSpread [("gold", 0)])
      [⟨some "b", some "gold"⟩]).1 [("gold", 0)] = [("gold", ["a", "b"])] ∧
    (mergePageRef [["a"]] (shallowSpread [("gold", 0)])
      [⟨some "b", some "gold"⟩]).2 = [("gold", 0)] := by decide

/-- C5 (counterexample): the claim lists `scanCompletedAt` and
`scanHeartbeat` among the keys that cancel and the version guard delete,
but `clearScan` (lines 465-478) deletes neither: after clearing a store in
which every key is set, both still hold their old values. -/
theorem c5_counterexample :
    (clearScan alwaysOk 0 kvAllSet).1.flairScanCompletedAt = some 5 ∧
    (clearScan alwaysOk 0 kvAllSet).1.flairScanHeartbeat = some 7 ∧
    (resetFlairScanIfAppUpdated alwaysOk 0 kvAllSet "2.0").1.flairScanCompletedAt = some 5 ∧
    (resetFlairScanIfAppUpdated alwaysOk 0 kvAllSet "2.0").1.flairScanHeartbeat = some 7 := by
  decide

/-- C5 (amended): for every starting store state, `clearScan` - the cancel
action, also invoked by the version guard `resetFlairScanIfAppUpdated`
when the stored version differs - deletes `flairScanPartial`,
`flairScanResult`, `flairScanInProgress`, `flairScanFailed`,
`flairScanFailedMessage` and `flairScanStartedAt`, so the resulting state
classifies as NoScan; but `flairScanCompletedAt` and `flairScanHeartbeat`
are left untouched. -/
theorem c5_clear_to_noscan (kv : KV) (t : Nat) (v : String) :
    (clearScan alwaysOk t kv).1.flairScanPartial = none ∧
    (clearScan alwaysOk t kv).1.flairScanResult = none ∧
    (clearScan alwaysOk t kv).1.flairScanInProgress = none ∧
    (clearScan alwaysOk t kv).1.flairScanFailed = none ∧
    (clearScan alwaysOk t kv).1.flairScanFailedMessage = none ∧
    (clearScan alwaysOk t kv).1.flairScanStartedAt = none ∧
    (clearScan alwaysOk t kv).1.flairScanCompletedAt = kv.flairScanCompletedAt ∧
    (clearScan alwaysOk t kv).1.flairScanHeartbeat = kv.flairScanHeartbeat ∧
    isNoScan (clearScan alwaysOk t kv).1 = true ∧
    (kv.appVersion ≠ some v →
      (resetFlairScanIfAppUpdated alwaysOk t kv v).1.flairScanPartial = none ∧
      (resetFlairScanIfAppUpdated alwaysOk t kv v).1.flairScanResult = none ∧
      (resetFlairScanIfAppUpdated alwaysOk t kv v).1.flairScanCompletedAt =
        kv.flairScanCompletedAt ∧
      (resetFlairScanIfAppUpdated alwaysOk t kv v).1.flairScanHeartbeat =
        kv.flairScanHeartbeat ∧
      (resetFlairScanIfAppUpdated alwaysOk t kv v).1.appVersion = some v ∧
      isNoScan (resetFlairScanIfAppUpdated alwaysOk t kv v).1 = true) := by
  refine ⟨?_, ?_, ?_, ?_, ?_, ?_, ?_, ?_, ?_, ?_⟩
  · simp [clearScan, safeKVOp, alwaysOk]
  · simp [clearScan, safeKVOp, alwaysOk]
  · simp [clearScan, safeKVOp, alwaysOk]
  · simp [clearScan, safeKVOp, alwaysOk]
  · simp [clearScan, safeKVOp, alwaysOk]
  · simp [clearScan, safeKVOp, alwaysOk]
  · simp [clearScan, safeKVOp, alwaysOk]
  · simp [clearScan, safeKVOp, alwaysOk]
  · simp [clearScan, safeKVOp, alwaysOk, isNoScan]
  · intro h
    simp [resetFlairScanIfAppUpdated, clearScan, safeKVOp, alwaysOk, isNoScan, h]

/-- C5 (witness): the amended theorem applied to the all-keys-set store
with a version change from "1.0" to "2.0". -/
theorem c5_witness :
    kvAllSet.appVersion ≠ some "2.0" ∧
    (resetFlairScanIfAppUpdated alwaysOk 0 kvAllSet "2.0").1.appVersion = some "2.0" ∧
    isNoScan (resetFlairScanIfAppUpdated alwaysOk 0 kvAllSet "2.0").1 = true ∧
    isNoScan kvAllSet = false := by
  have h : kvAllSet.appVersion ≠ some "2.0" := by decide
  have hmain := (c5_clear_to_noscan kvAllSet 0 "2.0").2.2.2.2.2.2.2.2.2 h
  exact ⟨h, hmain.2.2.2.2.1, hmain.2.2.2.2.2, by decide⟩

/-- C7 (counterexample): the claim promises the default timeout 30 whenever
the setting is unparsable, but `parseInt` of an unparsable value is NaN,
`typeof NaN === "number"` passes the guard at line 115, and so the budget
uses NaN - under which `isTimeRemaining` is always false - rather than
30. -/
theorem c7_counterexample :
    timeoutSecondsOf (some "abc") = none ∧
    (none = (some 30 : Option Int) → False) ∧
    isTimeRemaining 0 (timeoutSecondsOf (some "abc")) = false := by decide

/-- C7 (amended): the timeout used by the time budget is 30 only when the
setting is absent (then the string "30" is parsed); a present, parsable
setting yields the configured value; a present but unparsable setting
yields NaN (not 30), under which the time budget reports no remaining time
on every check, so such a chunk fetches no page. -/
theorem c7_timeout_selection :
    timeoutSecondsOf none = some 30 ∧
    (∀ s n, parseIntBase10 s = some n → timeoutSecondsOf (some s) = some n) ∧
    (∀ s, parseIntBase10 s = none → timeoutSecondsOf (some s) = none ∧
      ∀ e, isTimeRemaining e (timeoutSecondsOf (some s)) = false) := by
  refine ⟨by decide, ?_, ?_⟩
  · intro s n h
    simp [timeoutSecondsOf, getAppSettings, jsTypeofNumber, h]
  · intro s h
    refine ⟨by simp [timeoutSecondsOf, getAppSettings, jsTypeofNumber, h], ?_⟩
    intro e
    simp [timeoutSecondsOf, getAppSettings, jsTypeofNumber, h, isTimeRemaining]

/-- C7 (witness): the theorem applied to a parsable setting "45" and an
unparsable setting "abc". -/
theorem c7_witness :
    parseIntBase10 "45" = some 45 ∧ timeoutSecondsOf (some "45") = some 45 ∧
    parseIntBase10 "abc" = none ∧ timeoutSecondsOf (some "abc") = none ∧
    isTimeRemaining 100 (timeoutSecondsOf (some "abc")) = false ∧
    timeoutSecondsOf none = some 30 := by
  have h45 : parseIntBase10 "45" = some 45 := by decide
  have habc : parseIntBase10 "abc" = none := by decide
  have hmain := c7_timeout_selection
  exact ⟨h45, hmain.2.1 "45" 45 h45, habc, (hmain.2.2 "abc" habc).1,
    (hmain.2.2 "abc" habc).2 100, hmain.1⟩

/-- C9 (counterexample): the claim says every member with a non-empty label
has its identifier appended and counted, but the code keys and filters on
the trimmed label (line 157): a member whose label is a single space - a
non-empty label - is skipped entirely. -/
theorem c9_counterexample :
    (⟨some "u1", some " "⟩ : Member).flairText = some " " ∧
    ((" " : String) = "" → False) ∧
    mergeUser [] 0 ⟨some "u1", some " "⟩ = ([], 0) := by decide

/-- C9 (amended): a member is skipped - added to no group, not counted -
exactly when its trimmed label is empty (in particular when the raw label
is absent or empty); a member whose trimmed label is non-empty has its
identifier (the sentinel "Unknown" when absent) appended to the group
keyed by the trimmed label and increments the count by exactly one. -/
theorem c9_member_merge (g : Groups) (cnt : Nat) (u : Member) :
    ((u.flairText = none ∨ u.flairText = some "") → mergeUser g cnt u = (g, cnt)) ∧
    (memberLabel u = "" → mergeUser g cnt u = (g, cnt)) ∧
    (memberLabel u ≠ "" →
      mergeUser g cnt u = (groupsPush g (memberLabel u) (memberName u), cnt + 1)) ∧
    (u.user = none → memberName u = "Unknown") := by
  refine ⟨?_, ?_, ?_, ?_⟩
  · intro h
    have hl : memberLabel u = "" := by
      rcases h with h | h <;> simp [memberLabel, h, jsTrim]
    simp [mergeUser, hl]
  · intro hl; simp [mergeUser, hl]
  · intro hl; simp [mergeUser, hl]
  · intro h; simp [memberName, h]

/-- C9 (witness): the theorem applied to a member with label " gold " and
no identifier: grouped under the trimmed key "gold" as "Unknown", count
incremented; and to a member with an absent label: skipped. -/
theorem c9_witness :
    memberLabel (⟨none, some " gold "⟩ : Member) ≠ "" ∧
    mergeUser [] 0 ⟨none, some " gold "⟩ = ([("gold", ["Unknown"])], 1) ∧
    mergeUser [("gold", ["Unknown"])] 1 ⟨some "u2", none⟩ =
      ([("gold", ["Unknown"])], 1) := by
  have h1 : memberLabel (⟨none, some " gold "⟩ : Member) ≠ "" := by decide
  have hm1 := (c9_member_merge [] 0 ⟨none, some " gold "⟩).2.2.1 h1
  have hm2 := (c9_member_merge [("gold", ["Unknown"])] 1 ⟨some "u2", none⟩).1
    (Or.inl rfl)
  refine ⟨h1, ?_, hm2⟩
  rw [hm1]
  have hl : memberLabel (⟨none, some " gold "⟩ : Member) = "gold" := by decide
  have hn : memberName (⟨none, some " gold "⟩ : Member) = "Unknown" := by decide
  rw [hl, hn]
  decide

end FlairFax
